import Mathlib

/-!
# Verification of the draw-and-guess game server (`src/server.js`)

A shallow embedding of the per-room game state machine of `server.js`.

Modelling conventions:
* One `Room` value models a single `GameRoom` instance plus its presence in the
  process-wide `rooms` registry (field `registered`: `rooms.delete(this.id)` in
  `cleanupRoom` becomes `registered := false`).
* A participant is identified by their id string; the roster `playerIds` keeps
  the JS `Map`'s insertion order.  `Map.set` of an existing key does not grow
  the map, `Map.delete` removes the single entry with that key.
* `Math.random()`-driven choices are threaded as an extra `Nat` argument `k`,
  used modulo the number of candidates (JS: `Math.floor(Math.random()*len)` is
  a uniform index in `[0, len)`).
* `setInterval` / `setTimeout` callbacks are modelled as separate functions:
  a timer tick is `tickRoom`, the 3-second delayed continuation scheduled by
  `endRound` and by a correct guess is exactly `this.startNewRound()`, i.e.
  `startNewRoundRoom`.  Where the JS callback would throw a `TypeError`
  (dereferencing `this.gameState` after it was set to `null`), the model
  returns `none`.
* Broadcasts become a returned `List Event`.  `Event.errorToCaller` is the
  `socket.emit('error', ...)` sent to the originating caller only; every other
  event constructor is a room or global broadcast.  Payload fields are kept
  only where some claim depends on them.
* The per-language word lists (`./wordlists/*.json`) are data files outside
  `src/`; a room carries its resolved word list in the field `words`
  (`wordLists[this.language] || wordLists['en']`).
-/

/-- Room lifecycle status (`'waiting' | 'playing' | 'finished'`). -/
inductive Status where
  | waiting
  | playing
  | finished
deriving DecidableEq, Repr

/-- Outbound events. Payloads are retained only where claims need them:
`newRound` carries the drawer id, `gameEnded` the winner id and score,
`correctGuess` the guesser id, drawer id and both awarded amounts. -/
inductive Event where
  | playerJoined (playerId : String)
  | playerLeft (playerId : String)
  | chatSystem
  | chatHistory
  | gameStarted
  | gameReset
  | newRound (drawingPlayerId : String)
  | timerUpdate (timer : Nat)
  | roundEnded (word : String)
  | correctGuess (guesserId drawerId : String) (guesserPoints drawerPoints : Nat)
  | gameEnded (winnerId : String) (winnerScore : Nat)
  | gameEndedEarly
  | canvasUpdated
  | roomListUpdated
  | roomJoined (playerId : String)
  | errorToCaller (message : String)
deriving DecidableEq, Repr

/-- The `gameState` object created by `startGame` (lines 206–216).
`scores` is a JS object; `Object.entries` iteration order is insertion order,
modelled by an association list.  `currentPlayerIndex` starts at `-1`, hence
`Int`. -/
structure GameState where
  currentRound : Nat
  currentPlayerIndex : Int
  currentWord : String
  timer : Nat
  scores : List (String × Nat)
  drawingPlayerId : Option String
  usedWords : List String
  canvasData : Option String
deriving DecidableEq, Repr

/-- A `GameRoom` together with its registration in the `rooms` map. -/
structure Room where
  playerIds : List String
  host : String
  status : Status
  gameState : Option GameState
  registered : Bool
  words : List String
deriving DecidableEq, Repr

/-- `this.maxPlayers = 8`. -/
def maxPlayers : Nat := 8

/-- Reading `scores[id]` (association-list lookup, first binding wins,
matching JS object key uniqueness). -/
def lookupScore (l : List (String × Nat)) (k : String) : Option Nat :=
  l.lookup k

/-- `scores[id] += pts` — updates the binding for `k` in place, preserving
object key order. -/
def bumpScore (l : List (String × Nat)) (k : String) (pts : Nat) :
    List (String × Nat) :=
  l.map (fun p => bif p.1 == k then (p.1, p.2 + pts) else p)

/-- JS `String.prototype.toLowerCase` modelled per character (ASCII case
fold; the claims' inputs are ASCII). -/
def jsToLower (s : String) : String :=
  ⟨s.data.map Char.toLower⟩

/-- JS `String.prototype.trim`: strip leading and trailing whitespace. -/
def jsTrim (s : String) : String :=
  ⟨((s.data.dropWhile Char.isWhitespace).reverse.dropWhile
      Char.isWhitespace).reverse⟩

/-- Lines 300–303: `guess.toLowerCase().trim() === currentWord.toLowerCase()`.
Note the stored word is case-folded but NOT trimmed. -/
def isCorrectGuess (guess currentWord : String) : Bool :=
  jsTrim (jsToLower guess) == jsToLower currentWord

/-- The comparison the spec's words describe ("normalizes BOTH guess and
secret word by trimming and case-folding before exact-match comparison");
kept separate to compare against `isCorrectGuess`, which embeds the source. -/
def specNormalizedMatch (guess currentWord : String) : Bool :=
  jsToLower (jsTrim guess) == jsToLower (jsTrim currentWord)

/-- `getRandomWord` (lines 412–423), with the list already resolved by
language.  Returns the chosen word and the new `usedWords` (the code pushes
the chosen word itself).  `k` stands for the random draw. -/
def getRandomWord (words usedWords : List String) (k : Nat) :
    String × List String :=
  let availableWords := words.filter (fun w => !usedWords.contains w)
  if availableWords.isEmpty then
    -- usedWords is reset to [] and the full list is used
    let w := words.getD (k % words.length) ""
    (w, [w])
  else
    let w := availableWords.getD (k % availableWords.length) ""
    (w, usedWords ++ [w])

/-- The fresh `gameState` literal of `startGame` (lines 206–220): every
current member's score at 0 (roster iteration order), empty used-word
history, no canvas payload, index `-1`. -/
def initGameState (playerIds : List String) : GameState :=
  { currentRound := 0
    currentPlayerIndex := -1
    currentWord := ""
    timer := 60
    scores := playerIds.map (fun pid => (pid, 0))
    drawingPlayerId := none
    usedWords := []
    canvasData := none }

/-- Core of `startNewRound` (lines 242–258) on a present `gameState`:
`currentPlayerIndex = (currentPlayerIndex + 1) % players.size`, drawer from
the roster at that index, fresh word, canvas cleared, timer 60.
`currentPlayerIndex ≥ -1` always holds, so the JS `%` (truncating) agrees
with `Int.emod` here (non-negative dividend). -/
def startNewRoundGs (playerIds words : List String) (gs : GameState)
    (k : Nat) : GameState :=
  let idx : Int := (gs.currentPlayerIndex + 1) % (playerIds.length : Int)
  let drawingPlayerId := playerIds.getD idx.toNat ""
  let pick := getRandomWord words gs.usedWords k
  { gs with
      currentPlayerIndex := idx
      drawingPlayerId := some drawingPlayerId
      currentWord := pick.1
      usedWords := pick.2
      canvasData := none
      timer := 60 }

/-- `startNewRound` as invoked on a room, e.g. by the two `setTimeout`
continuations (lines 291–293 and 327–329).  The body dereferences
`this.gameState` with no guard; when the room was reset or torn down
(`gameState === null`) the JS callback throws a `TypeError`, modelled as
`none`.  Otherwise the round state advances and `new_round` is broadcast. -/
def startNewRoundRoom (r : Room) (k : Nat) : Option (Room × List Event) :=
  match r.gameState with
  | none => none
  | some gs =>
    let gs1 := startNewRoundGs r.playerIds r.words gs k
    some ({ r with gameState := some gs1 },
      [Event.newRound (gs1.drawingPlayerId.getD "")])

/-- One `setInterval` tick of `startTimer` (lines 266–283): if the game state
is gone or the status left `playing` the interval is cancelled and nothing
happens; otherwise the timer decrements, `timer_update` is broadcast, and at
zero `endRound` broadcasts `round_ended` (the word reveal) and schedules the
3-second continuation (`startNewRoundRoom`). -/
def tickRoom (r : Room) : Room × List Event :=
  match r.gameState with
  | none => (r, [])
  | some gs =>
    if r.status ≠ Status.playing then (r, [])
    else
      let t := gs.timer - 1
      let r1 := { r with gameState := some { gs with timer := t } }
      if t = 0 then
        (r1, [Event.timerUpdate t, Event.roundEnded gs.currentWord])
      else
        (r1, [Event.timerUpdate t])

/-- `endGameDueToInsufficientPlayers` (lines 369–400): system chat,
`game_ended_early`, status → finished, game state discarded, room list
refreshed. -/
def endGameDueToInsufficientPlayers (r : Room) : Room × List Event :=
  ({ r with status := Status.finished, gameState := none },
    [Event.chatSystem, Event.gameEndedEarly, Event.roomListUpdated])

/-- `checkForWinner` (lines 333–367): the first score-table entry (insertion
order) at or above 1000 whose player is still in the room ends the game
(`game_ended`, status → finished, room list, congratulation chat); the loop
breaks after the first entry ≥ 1000 either way.  Afterwards, if still playing
with ≤ 1 players, insufficient-players termination runs. -/
def checkForWinner (r : Room) : Room × List Event :=
  let step1 : Room × List Event :=
    match r.gameState with
    | none => (r, [])
    | some gs =>
      match gs.scores.find? (fun p => 1000 ≤ p.2) with
      | some (playerId, score) =>
        if r.playerIds.contains playerId then
          ({ r with status := Status.finished },
            [Event.gameEnded playerId score, Event.roomListUpdated,
             Event.chatSystem])
        else (r, [])
      | none => (r, [])
  if step1.1.status = Status.playing ∧ step1.1.playerIds.length ≤ 1 then
    let e := endGameDueToInsufficientPlayers step1.1
    (e.1, step1.2 ++ e.2)
  else step1

/-- `handleGuess` (lines 296–331): no-op unless playing; no-op for the
drawer; on a normalized exact match both players (if still present) are
awarded `40 + timeBonus` (drawer) and `30 + timeBonus` (guesser) with
`timeBonus = floor(timer/10)*10`, `correct_guess` is broadcast and
`checkForWinner` runs.  The `setTimeout(startNewRound, 3000)` scheduled at
the end of the match branch is the separate continuation
`startNewRoundRoom`, armed unconditionally (no status re-check). -/
def handleGuess (r : Room) (playerId guess : String) : Room × List Event :=
  if r.status ≠ Status.playing then (r, [])
  else
    match r.gameState with
    | none => (r, [])
    | some gs =>
      if some playerId = gs.drawingPlayerId then (r, [])
      else if !isCorrectGuess guess gs.currentWord then (r, [])
      else
        match gs.drawingPlayerId with
        | none => (r, [])
        | some drawerId =>
          if !(r.playerIds.contains drawerId && r.playerIds.contains playerId)
          then (r, [])
          else
            let timeBonus := gs.timer / 10 * 10
            let drawingPlayerPoints := 40 + timeBonus
            let guessingPlayerPoints := 30 + timeBonus
            let scores1 := bumpScore gs.scores drawerId drawingPlayerPoints
            let scores2 := bumpScore scores1 playerId guessingPlayerPoints
            let r1 := { r with gameState := some { gs with scores := scores2 } }
            let w := checkForWinner r1
            (w.1, Event.correctGuess playerId drawerId guessingPlayerPoints
              drawingPlayerPoints :: w.2)

/-- `startGame` (lines 202–229): returns `false` with no mutation unless
waiting with ≥ 2 players; otherwise status → playing, fresh `gameState`
(scores all 0, empty used-word history), `game_started`, first round started
immediately, room list refreshed, returns `true`. -/
def startGame (r : Room) (k : Nat) : Bool × Room × List Event :=
  if r.status ≠ Status.waiting ∨ r.playerIds.length < 2 then (false, r, [])
  else
    let gs1 := startNewRoundGs r.playerIds r.words (initGameState r.playerIds) k
    (true,
      { r with status := Status.playing, gameState := some gs1 },
      [Event.gameStarted, Event.newRound (gs1.drawingPlayerId.getD ""),
       Event.roomListUpdated])

/-- `handleStartGame` (lines 681–705): only the host may start (error to the
caller otherwise, nothing mutated); a `false` from `startGame` surfaces as a
caller-only error. -/
def handleStartGame (r : Room) (requesterId : String) (k : Nat) :
    Bool × Room × List Event :=
  if requesterId ≠ r.host then
    (false, r, [Event.errorToCaller "Only the host can start the game"])
  else
    let s := startGame r k
    if s.1 then s
    else (false, s.2.1,
      s.2.2 ++ [Event.errorToCaller "At least 2 players needed to start"])

/-- `resetGame` (lines 231–240): unconditionally status → waiting, game
state discarded, `game_reset` and room list broadcast.  There is no status
precondition — a finished room is reset just like a playing one. -/
def resetGame (r : Room) : Room × List Event :=
  ({ r with status := Status.waiting, gameState := none },
    [Event.gameReset, Event.roomListUpdated])

/-- `handleResetGame` (lines 707–719): host-only, otherwise caller-only
error and no mutation. -/
def handleResetGame (r : Room) (requesterId : String) : Room × List Event :=
  if requesterId ≠ r.host then
    (r, [Event.errorToCaller "Only the host can reset the game"])
  else resetGame r

/-- `addPlayer` (lines 51–64): throws `'Room is full'` at capacity (`none`),
otherwise `Map.set` (no roster growth if the id is already a key) and
`player_joined`. -/
def addPlayer (r : Room) (playerId : String) : Option (Room × List Event) :=
  if maxPlayers ≤ r.playerIds.length then none
  else
    let roster :=
      if r.playerIds.contains playerId then r.playerIds
      else r.playerIds ++ [playerId]
    some ({ r with playerIds := roster }, [Event.playerJoined playerId])

/-- `handleJoinRoom` (lines 613–672) for a resolved room: missing fields →
caller-only error; status ≠ waiting → caller-only error `'Game has already
started'`; capacity error caught and reported to the caller; otherwise the
player is inserted and `chat_history` / `room_joined` / room list follow.
(The `rooms.get` lookup and its `'Room not found'` error precede this and
touch no room.) -/
def handleJoinRoom (r : Room) (roomId playerName newPlayerId : String) :
    Room × List Event :=
  if roomId = "" ∨ playerName = "" then
    (r, [Event.errorToCaller "Room ID and player name are required"])
  else if r.status ≠ Status.waiting then
    (r, [Event.errorToCaller "Game has already started"])
  else
    match addPlayer r newPlayerId with
    | none => (r, [Event.errorToCaller "Room is full"])
    | some (r1, evts) =>
      (r1, evts ++ [Event.chatHistory, Event.roomJoined newPlayerId,
        Event.roomListUpdated])

/-- `cleanupRoom` (lines 110–141): chat history dropped, pending interval
cleared, roster emptied, statistics updated, `rooms.delete(this.id)`
(deregistration), game state nulled, room list broadcast. -/
def cleanupRoom (r : Room) : Room × List Event :=
  ({ r with playerIds := [], registered := false, gameState := none },
    [Event.roomListUpdated])

/-- `removePlayer` (lines 66–108): no-op for a non-member; otherwise the
member is deleted, a system chat message is posted, the host is reassigned to
the first remaining member (with a chat announcement) if the host left,
`player_left` is broadcast, and then exactly one of: insufficient-players
termination (playing ∧ ≤ 1 left), full room teardown (roster empty), or a
room-list refresh. -/
def removePlayer (r : Room) (playerId : String) : Room × List Event :=
  if !r.playerIds.contains playerId then (r, [])
  else
    let rest := r.playerIds.filter (fun q => q != playerId)
    let hostLeft := r.host = playerId ∧ rest ≠ []
    let newHost := if hostLeft then rest.headD "" else r.host
    let hostEvts : List Event := if hostLeft then [Event.chatSystem] else []
    let r1 := { r with playerIds := rest, host := newHost }
    let baseEvts := Event.chatSystem :: hostEvts ++ [Event.playerLeft playerId]
    if r1.status = Status.playing ∧ rest.length ≤ 1 then
      let e := endGameDueToInsufficientPlayers r1
      (e.1, baseEvts ++ e.2)
    else if rest.length = 0 then
      let c := cleanupRoom r1
      (c.1, baseEvts ++ c.2)
    else
      (r1, baseEvts ++ [Event.roomListUpdated])

/-- `updateCanvas` (lines 402–410): store the opaque payload on the round,
relay to everyone but the drawer. -/
def updateCanvas (r : Room) (canvasData : Option String) : Room × List Event :=
  match r.gameState with
  | none => (r, [])
  | some gs =>
    ({ r with gameState := some { gs with canvasData := canvasData } },
      [Event.canvasUpdated])

/-- `GameRoom` constructor + `rooms.set` in `handleCreateRoom` (lines
31–49, 589–601): waiting room, the host as sole roster member, registered. -/
def createRoom (hostId : String) (words : List String) : Room :=
  { playerIds := [hostId]
    host := hostId
    status := Status.waiting
    gameState := none
    registered := true
    words := words }


/-! ## The event-driven transition system

The socket handlers dispatch each inbound event, and each armed timer
callback, as one run-to-completion mutation of a room.  Handlers reach a room
through `rooms.get`, so only registered rooms receive operations; the
`setInterval` tick and the delayed `startNewRound` continuation are included
as steps (the latter only when it does not throw). -/

inductive Step : Room → Room → Prop where
  | join (r : Room) (roomId playerName newPlayerId : String)
      (hreg : r.registered = true) :
      Step r (handleJoinRoom r roomId playerName newPlayerId).1
  | leave (r : Room) (playerId : String) (hreg : r.registered = true) :
      Step r (removePlayer r playerId).1
  | start (r : Room) (requesterId : String) (k : Nat)
      (hreg : r.registered = true) :
      Step r (handleStartGame r requesterId k).2.1
  | reset (r : Room) (requesterId : String) (hreg : r.registered = true) :
      Step r (handleResetGame r requesterId).1
  | guess (r : Room) (playerId g : String) (hreg : r.registered = true) :
      Step r (handleGuess r playerId g).1
  | roundCont (r r' : Room) (k : Nat) (evts : List Event)
      (hreg : r.registered = true)
      (h : startNewRoundRoom r k = some (r', evts)) : Step r r'
  | tick (r : Room) (hreg : r.registered = true) : Step r (tickRoom r).1
  | canvas (r : Room) (d : Option String) (hreg : r.registered = true) :
      Step r (updateCanvas r d).1

/-- Rooms reachable from creation through handler and timer steps. -/
inductive Reach : Room → Prop where
  | init (hostId : String) (words : List String) :
      Reach (createRoom hostId words)
  | step (r r' : Room) (h : Reach r) (hs : Step r r') : Reach r'

/-! ## Definitions used by the claim statements -/

/-- The status-transition diagram actually implemented: `startGame` takes
waiting → playing, the winner check and insufficient-players termination take
playing → finished, and `resetGame` takes playing → waiting but also
finished → waiting (it has no status precondition). -/
def StatusTransOk (a b : Status) : Prop :=
  a = b ∨ (a = Status.waiting ∧ b = Status.playing) ∨
    (a = Status.playing ∧ b = Status.finished) ∨
    ((a = Status.playing ∨ a = Status.finished) ∧ b = Status.waiting)

/-- `n` successive `startNewRound` calls over a fixed roster, starting from
round state `gs`; `picks n` is the random draw of the `n`-th call. -/
def roundsAfter (playerIds words : List String) (picks : Nat → Nat)
    (gs : GameState) : Nat → GameState
  | 0 => gs
  | n + 1 =>
    startNewRoundGs playerIds words
      (roundsAfter playerIds words picks gs n) (picks n)

/-- A two-player game in progress: "A" draws `"cat"`, "B" has 960 points and
57 seconds remain. -/
def c1Room : Room :=
  { playerIds := ["A", "B"]
    host := "A"
    status := Status.playing
    gameState := some
      { currentRound := 0
        currentPlayerIndex := 0
        currentWord := "cat"
        timer := 57
        scores := [("A", 0), ("B", 960)]
        drawingPlayerId := some "A"
        usedWords := ["cat"]
        canvasData := none }
    registered := true
    words := ["cat", "dog"] }

def c2Room1 : Room :=
  (handleJoinRoom (createRoom "A" ["w1", "w2", "w3"]) "room1" "Bob" "B").1

def c2Room2 : Room := (handleStartGame c2Room1 "A" 0).2.1

/-- "B" leaves the two-player game: insufficient players, status finished. -/
def c2Room3 : Room := (removePlayer c2Room2 "B").1

def c4Room1 : Room :=
  (handleJoinRoom (createRoom "A" ["w1", "w2"]) "r4" "Bea" "B").1

def c4Room2 : Room := (handleStartGame c4Room1 "A" 0).2.1

/-- The host resets while the 3-second post-round delay is pending. -/
def c4Room3 : Room := (handleResetGame c4Room2 "A").1

/-- A playing room whose stored secret word carries a trailing space. -/
def c5Room : Room :=
  { playerIds := ["A", "B"]
    host := "A"
    status := Status.playing
    gameState := some
      { currentRound := 0
        currentPlayerIndex := 0
        currentWord := "cat "
        timer := 50
        scores := [("A", 0), ("B", 0)]
        drawingPlayerId := some "A"
        usedWords := ["cat "]
        canvasData := none }
    registered := true
    words := ["cat ", "dog"] }

def c6Gs : GameState :=
  { currentRound := 0
    currentPlayerIndex := 0
    currentWord := "dog"
    timer := 35
    scores := [("A", 10), ("B", 20), ("C", 30)]
    drawingPlayerId := some "A"
    usedWords := ["dog"]
    canvasData := none }

def c6Room : Room :=
  { playerIds := ["A", "B", "C"]
    host := "A"
    status := Status.playing
    gameState := some c6Gs
    registered := true
    words := ["dog", "sun", "car"] }

def c7Room2 : Room :=
  (handleJoinRoom
    (handleJoinRoom (createRoom "A" ["w1", "w2", "w3", "w4"]) "r7" "b" "B").1
    "r7" "c" "C").1

/-- Game started: round 1, drawer "A" (index 0). -/
def c7Room3 : Room := (handleStartGame c7Room2 "A" 0).2.1

/-- Round 2 via the post-round continuation: index 1, drawer "B". -/
def c7Room4 : Room := ((startNewRoundRoom c7Room3 0).getD (c7Room3, [])).1

/-- "A" leaves mid-game: roster ["B", "C"], still playing. -/
def c7Room5 : Room := (removePlayer c7Room4 "A").1

def c8Room : Room :=
  (handleJoinRoom (createRoom "H" ["w8"]) "r8" "guest" "G").1

/-- A room whose game already started, targeted by a join request. -/
def c10Room : Room :=
  { playerIds := ["A", "B"]
    host := "A"
    status := Status.playing
    gameState := some (initGameState ["A", "B"])
    registered := true
    words := ["w"] }


/-- Invariant maintained by every handler and timer step: the roster has no
duplicate ids, a room is deregistered exactly when its roster is empty, and a
playing room always has at least two members. -/
def RoomInv (r : Room) : Prop :=
  r.playerIds.Nodup ∧ (r.registered = false ↔ r.playerIds = []) ∧
    (r.status = Status.playing → 2 ≤ r.playerIds.length)

/-! ## List and score-table helper lemmas -/

theorem filter_ne_eq_erase (l : List String) (a : String) (h : l.Nodup) :
    l.filter (fun q => q != a) = l.erase a :=
  (h.erase_eq_filter a).symm

theorem length_filter_ne_of_mem (l : List String) (a : String)
    (hnd : l.Nodup) (hm : a ∈ l) :
    (l.filter (fun q => q != a)).length = l.length - 1 := by
  rw [filter_ne_eq_erase l a hnd]
  exact List.length_erase_of_mem hm

theorem two_le_length_of_two_mem (l : List String) (a b : String)
    (ha : a ∈ l) (hb : b ∈ l) (hne : a ≠ b) : 2 ≤ l.length := by
  induction l with
  | nil => cases ha
  | cons c t ih =>
    rcases List.mem_cons.mp ha with rfl | hat
    · rcases List.mem_cons.mp hb with rfl | hbt
      · exact absurd rfl hne
      · have : 1 ≤ t.length := List.length_pos.mpr (List.ne_nil_of_mem hbt)
        simp only [List.length_cons]
        omega
    · rcases List.mem_cons.mp hb with rfl | hbt
      · have : 1 ≤ t.length := List.length_pos.mpr (List.ne_nil_of_mem hat)
        simp only [List.length_cons]
        omega
      · have := ih hat hbt
        simp only [List.length_cons]
        omega

theorem lookup_bump_self (l : List (String × Nat)) (k : String) (pts : Nat) :
    lookupScore (bumpScore l k pts) k = (lookupScore l k).map (· + pts) := by
  induction l with
  | nil => rfl
  | cons p t ih =>
    obtain ⟨a, b⟩ := p
    by_cases h : a = k
    · subst h
      simp only [lookupScore, bumpScore, List.map_cons, List.lookup,
        beq_self_eq_true, cond_true]
      rfl
    · have hbeq : (k == a) = false := by
        simp only [beq_eq_false_iff_ne, ne_eq]
        exact fun he => h he.symm
      have hbeq2 : (a == k) = false := by
        simp only [beq_eq_false_iff_ne, ne_eq]
        exact h
      simp only [lookupScore, bumpScore, List.map_cons, List.lookup, hbeq,
        hbeq2, cond_false] at ih ⊢
      exact ih

theorem lookup_bump_ne (l : List (String × Nat)) (k k' : String) (pts : Nat)
    (h : k' ≠ k) :
    lookupScore (bumpScore l k pts) k' = lookupScore l k' := by
  induction l with
  | nil => rfl
  | cons p t ih =>
    obtain ⟨a, b⟩ := p
    by_cases hp : a = k
    · subst hp
      have hbeq : (k' == a) = false := by
        simp only [beq_eq_false_iff_ne, ne_eq]; exact h
      simp only [lookupScore, bumpScore, List.map_cons, List.lookup,
        beq_self_eq_true, cond_true, hbeq] at ih ⊢
      exact ih
    · have hbeq2 : (a == k) = false := by
        simp only [beq_eq_false_iff_ne, ne_eq]; exact hp
      by_cases hk' : k' = a
      · subst hk'
        simp only [lookupScore, bumpScore, List.map_cons, List.lookup,
          beq_self_eq_true, cond_false, hbeq2]
      · have hbeq : (k' == a) = false := by
          simp only [beq_eq_false_iff_ne, ne_eq]; exact hk'
        simp only [lookupScore, bumpScore, List.map_cons, List.lookup, hbeq,
          hbeq2, cond_false] at ih ⊢
        exact ih

theorem lookup_map_zero (l : List String) (k : String) (hm : k ∈ l) :
    lookupScore (l.map (fun pid => (pid, 0))) k = some 0 := by
  induction l with
  | nil => cases hm
  | cons c t ih =>
    by_cases h : k = c
    · simp [lookupScore, List.lookup, h]
    · have hbeq : (k == c) = false := by
        simp only [beq_eq_false_iff_ne, ne_eq]; exact h
      have hkt : k ∈ t := by
        rcases List.mem_cons.mp hm with rfl | hkt
        · exact absurd rfl h
        · exact hkt
      simp only [lookupScore] at ih ⊢
      simp only [List.map_cons, List.lookup, hbeq]
      exact ih hkt

/-! ## Per-operation facts about status, roster and registration -/

theorem join_status (r : Room) (a b c : String) :
    (handleJoinRoom r a b c).1.status = r.status := by
  unfold handleJoinRoom addPlayer
  split
  · rfl
  · split
    · rfl
    · split
      · rfl
      · next heq =>
        split at heq
        · cases heq
        · cases heq
          rfl

theorem leave_status (r : Room) (pid : String) :
    (removePlayer r pid).1.status = r.status ∨
      (r.status = Status.playing ∧
        (removePlayer r pid).1.status = Status.finished) := by
  unfold removePlayer endGameDueToInsufficientPlayers cleanupRoom
  split
  · exact Or.inl rfl
  · dsimp only
    split
    · next hcond => exact Or.inr ⟨hcond.1, rfl⟩
    · split
      · exact Or.inl rfl
      · exact Or.inl rfl

theorem start_status (r : Room) (req : String) (k : Nat) :
    (handleStartGame r req k).2.1.status = r.status ∨
      (r.status = Status.waiting ∧
        (handleStartGame r req k).2.1.status = Status.playing) := by
  unfold handleStartGame startGame
  split
  · exact Or.inl rfl
  · split
    · exact Or.inl rfl
    · next hcond =>
      rcases not_or.mp hcond with ⟨h1, _⟩
      exact Or.inr ⟨not_not.mp h1, rfl⟩

theorem reset_status (r : Room) (req : String) :
    (handleResetGame r req).1.status = r.status ∨
      (handleResetGame r req).1.status = Status.waiting := by
  unfold handleResetGame resetGame
  split
  · exact Or.inl rfl
  · exact Or.inr rfl

theorem checkForWinner_status (r : Room) :
    (checkForWinner r).1.status = r.status ∨
      (checkForWinner r).1.status = Status.finished := by
  unfold checkForWinner endGameDueToInsufficientPlayers
  dsimp only
  repeat first
  | exact Or.inl rfl
  | exact Or.inr rfl
  | split

theorem guess_status (r : Room) (pid g : String) :
    (handleGuess r pid g).1.status = r.status ∨
      (r.status = Status.playing ∧
        (handleGuess r pid g).1.status = Status.finished) := by
  unfold handleGuess
  split
  · exact Or.inl rfl
  · next hplaying =>
    have hpl : r.status = Status.playing := not_not.mp hplaying
    split
    · exact Or.inl rfl
    · split
      · exact Or.inl rfl
      · split
        · exact Or.inl rfl
        · split
          · exact Or.inl rfl
          · split
            · exact Or.inl rfl
            · dsimp only
              rcases checkForWinner_status _ with h | h
              · exact Or.inl h
              · exact Or.inr ⟨hpl, h⟩

theorem cont_status (r r' : Room) (k : Nat) (evts : List Event)
    (h : startNewRoundRoom r k = some (r', evts)) : r'.status = r.status := by
  unfold startNewRoundRoom at h
  split at h
  · cases h
  · cases h
    rfl

theorem tick_status (r : Room) : (tickRoom r).1.status = r.status := by
  unfold tickRoom
  dsimp only
  repeat first
  | rfl
  | split

theorem canvas_status (r : Room) (d : Option String) :
    (updateCanvas r d).1.status = r.status := by
  unfold updateCanvas
  split
  · rfl
  · rfl

/-! ## The reachable-state invariant -/


theorem contains_iff_mem (l : List String) (a : String) :
    l.contains a = true ↔ a ∈ l :=
  List.elem_iff

theorem inv_join (r : Room) (a b c : String) (hreg : r.registered = true)
    (h : RoomInv r) : RoomInv (handleJoinRoom r a b c).1 := by
  obtain ⟨hnd, hiff, hpl⟩ := h
  have hne : r.playerIds ≠ [] := by
    intro he
    rw [hiff.mpr he] at hreg
    cases hreg
  unfold handleJoinRoom addPlayer
  split
  · exact ⟨hnd, hiff, hpl⟩
  · split
    · exact ⟨hnd, hiff, hpl⟩
    · next hw =>
      have hwait : r.status = Status.waiting := not_not.mp hw
      split
      · exact ⟨hnd, hiff, hpl⟩
      · next r1 evts heq =>
        split at heq
        · cases heq
        · cases heq
          by_cases hc : c ∈ r.playerIds
          · rw [if_pos ((contains_iff_mem _ _).mpr hc)]
            exact ⟨hnd, hiff, hpl⟩
          · rw [if_neg (fun hcc => hc ((contains_iff_mem _ _).mp hcc))]
            refine ⟨?_, ?_, ?_⟩
            · rw [← List.concat_eq_append]
              exact List.Nodup.concat hc hnd
            · rw [hreg]
              simp
            · intro habs
              exact absurd (hwait.symm.trans habs) (by decide)

theorem inv_leave (r : Room) (pid : String) (hreg : r.registered = true)
    (h : RoomInv r) : RoomInv (removePlayer r pid).1 := by
  obtain ⟨hnd, hiff, hpl⟩ := h
  unfold removePlayer endGameDueToInsufficientPlayers cleanupRoom
  split
  · exact ⟨hnd, hiff, hpl⟩
  · next hmem' =>
    have hmem : pid ∈ r.playerIds := by
      rw [← contains_iff_mem]
      cases hcc : r.playerIds.contains pid
      · rw [hcc] at hmem'
        exact absurd rfl hmem'
      · rfl
    have hlen : (r.playerIds.filter (fun q => q != pid)).length =
        r.playerIds.length - 1 := length_filter_ne_of_mem _ _ hnd hmem
    have hndrest : (r.playerIds.filter (fun q => q != pid)).Nodup :=
      hnd.filter _
    dsimp only
    split
    · next hc =>
      have hplen : 2 ≤ r.playerIds.length := hpl hc.1
      refine ⟨hndrest, ?_, ?_⟩
      · rw [hreg]
        constructor
        · intro hfalse
          cases hfalse
        · intro he
          have := congrArg List.length he
          simp only [List.length_nil] at this
          omega
      · intro habs
        exact Status.noConfusion habs
    · next hc =>
      split
      · next hzero =>
        refine ⟨List.nodup_nil, by simp, ?_⟩
        intro habs
        exact absurd ⟨habs, by omega⟩ hc
      · next hzero =>
        refine ⟨hndrest, ?_, ?_⟩
        · rw [hreg]
          constructor
          · intro hfalse
            cases hfalse
          · intro he
            have := congrArg List.length he
            simp only [List.length_nil] at this
            exact absurd this hzero
        · intro habs
          have h2 : ¬((r.playerIds.filter (fun q => q != pid)).length ≤ 1) :=
            fun hle => hc ⟨habs, hle⟩
          show 2 ≤ (r.playerIds.filter (fun q => q != pid)).length
          omega

theorem inv_start (r : Room) (req : String) (k : Nat)
    (h : RoomInv r) : RoomInv (handleStartGame r req k).2.1 := by
  obtain ⟨hnd, hiff, hpl⟩ := h
  unfold handleStartGame startGame
  split
  · exact ⟨hnd, hiff, hpl⟩
  · split
    · exact ⟨hnd, hiff, hpl⟩
    · next hcond =>
      rcases not_or.mp hcond with ⟨h1, h2⟩
      refine ⟨hnd, hiff, fun _ => ?_⟩
      show 2 ≤ r.playerIds.length
      omega

theorem inv_reset (r : Room) (req : String)
    (h : RoomInv r) : RoomInv (handleResetGame r req).1 := by
  obtain ⟨hnd, hiff, hpl⟩ := h
  unfold handleResetGame resetGame
  split
  · exact ⟨hnd, hiff, hpl⟩
  · exact ⟨hnd, hiff, fun habs => Status.noConfusion habs⟩

theorem checkForWinner_roster (r : Room) :
    (checkForWinner r).1.playerIds = r.playerIds ∧
      (checkForWinner r).1.registered = r.registered := by
  unfold checkForWinner endGameDueToInsufficientPlayers
  dsimp only
  repeat first
  | exact ⟨rfl, rfl⟩
  | split

theorem guess_roster (r : Room) (pid g : String) :
    (handleGuess r pid g).1.playerIds = r.playerIds ∧
      (handleGuess r pid g).1.registered = r.registered := by
  unfold handleGuess
  split
  · exact ⟨rfl, rfl⟩
  · split
    · exact ⟨rfl, rfl⟩
    · split
      · exact ⟨rfl, rfl⟩
      · split
        · exact ⟨rfl, rfl⟩
        · split
          · exact ⟨rfl, rfl⟩
          · split
            · exact ⟨rfl, rfl⟩
            · dsimp only
              exact checkForWinner_roster _

theorem inv_guess (r : Room) (pid g : String)
    (h : RoomInv r) : RoomInv (handleGuess r pid g).1 := by
  obtain ⟨hnd, hiff, hpl⟩ := h
  obtain ⟨hf1, hf2⟩ := guess_roster r pid g
  refine ⟨hf1 ▸ hnd, by rw [hf2, hf1]; exact hiff, ?_⟩
  intro hplay
  rw [hf1]
  rcases guess_status r pid g with hs | hs
  · exact hpl (hs ▸ hplay)
  · rw [hplay] at hs
    exact absurd hs.2.symm (by decide)

theorem cont_roster (r r' : Room) (k : Nat) (evts : List Event)
    (h : startNewRoundRoom r k = some (r', evts)) :
    r'.playerIds = r.playerIds ∧ r'.registered = r.registered := by
  unfold startNewRoundRoom at h
  split at h
  · cases h
  · cases h
    exact ⟨rfl, rfl⟩

theorem inv_cont (r r' : Room) (k : Nat) (evts : List Event)
    (hsome : startNewRoundRoom r k = some (r', evts))
    (h : RoomInv r) : RoomInv r' := by
  obtain ⟨hnd, hiff, hpl⟩ := h
  obtain ⟨hf1, hf2⟩ := cont_roster r r' k evts hsome
  have hst := cont_status r r' k evts hsome
  exact ⟨hf1 ▸ hnd, by rw [hf2, hf1]; exact hiff,
    fun hplay => by rw [hf1]; exact hpl (hst ▸ hplay)⟩

theorem tick_roster (r : Room) :
    (tickRoom r).1.playerIds = r.playerIds ∧
      (tickRoom r).1.registered = r.registered := by
  unfold tickRoom
  dsimp only
  repeat first
  | exact ⟨rfl, rfl⟩
  | split

theorem inv_tick (r : Room) (h : RoomInv r) : RoomInv (tickRoom r).1 := by
  obtain ⟨hnd, hiff, hpl⟩ := h
  obtain ⟨hf1, hf2⟩ := tick_roster r
  have hst := tick_status r
  exact ⟨hf1 ▸ hnd, by rw [hf2, hf1]; exact hiff,
    fun hplay => by rw [hf1]; exact hpl (hst ▸ hplay)⟩

theorem canvas_roster (r : Room) (d : Option String) :
    (updateCanvas r d).1.playerIds = r.playerIds ∧
      (updateCanvas r d).1.registered = r.registered := by
  unfold updateCanvas
  split
  · exact ⟨rfl, rfl⟩
  · exact ⟨rfl, rfl⟩

theorem inv_canvas (r : Room) (d : Option String)
    (h : RoomInv r) : RoomInv (updateCanvas r d).1 := by
  obtain ⟨hnd, hiff, hpl⟩ := h
  obtain ⟨hf1, hf2⟩ := canvas_roster r d
  have hst := canvas_status r d
  exact ⟨hf1 ▸ hnd, by rw [hf2, hf1]; exact hiff,
    fun hplay => by rw [hf1]; exact hpl (hst ▸ hplay)⟩

theorem inv_step (r r' : Room) (h : RoomInv r) (hs : Step r r') :
    RoomInv r' := by
  cases hs with
  | join a b c hreg => exact inv_join r a b c hreg h
  | leave pid hreg => exact inv_leave r pid hreg h
  | start req k hreg => exact inv_start r req k h
  | reset req hreg => exact inv_reset r req h
  | guess pid g hreg => exact inv_guess r pid g h
  | roundCont _ k evts hreg hsome => exact inv_cont r r' k evts hsome h
  | tick hreg => exact inv_tick r h
  | canvas d hreg => exact inv_canvas r d h

theorem inv_of_reach (r : Room) (h : Reach r) : RoomInv r := by
  induction h with
  | init hostId words =>
    refine ⟨List.nodup_singleton _, ?_, ?_⟩
    · constructor
      · intro hfalse
        cases hfalse
      · intro he
        cases he
    · intro habs
      exact Status.noConfusion habs
  | step r r' hr hs ih => exact inv_step r r' ih hs

/-! ## Claims -/

/-- C1: In a playing room, a guess that lifts a participant's cumulative
score to ≥ 1000 does broadcast `game_ended` naming that participant and does
set the status to finished — but the claim's final clause fails on the code:
`handleGuess` unconditionally schedules `setTimeout(() => startNewRound(),
3000)` (lines 327–329) with no status re-check, and `checkForWinner` leaves
`gameState` in place, so three seconds after `game_ended` the continuation
runs and broadcasts a further `new_round` for the finished game.  Concretely:
"B" is at 960, guesses `"cat"` with 57 s left, gains 80 → 1040 ≥ 1000;
`game_ended` fires and the status becomes finished, yet the scheduled
continuation still emits `new_round`. -/
theorem c1_game_ended_then_new_round_fires :
    (handleGuess c1Room "B" "cat").1.status = Status.finished ∧
    Event.gameEnded "B" 1040 ∈ (handleGuess c1Room "B" "cat").2 ∧
    (startNewRoundRoom (handleGuess c1Room "B" "cat").1 0).map
        (fun p => p.2) = some [Event.newRound "B"] := by
  decide

/-- C2 (counterexample): finished is not terminal.  A reachable finished room
(two players start a game, one leaves, insufficient-players termination sets
status finished) is moved back to waiting by a host `resetGame` —
`resetGame` (lines 231–240) has no status precondition. -/
theorem c2_reset_unfinishes_a_finished_room :
    Reach c2Room3 ∧ c2Room3.status = Status.finished ∧
    (handleResetGame c2Room3 "A").1.status = Status.waiting := by
  refine ⟨?_, by decide, by decide⟩
  exact Reach.step _ _
    (Reach.step _ _
      (Reach.step _ _ (Reach.init "A" ["w1", "w2", "w3"])
        (Step.join _ "room1" "Bob" "B" rfl))
      (Step.start _ "A" 0 rfl))
    (Step.leave _ "B" rfl)

/-- C2 (amended): every handler or timer step moves a room's status along
waiting → playing (`startGame`), playing → finished (winner check or
insufficient players), or to waiting via `resetGame` — from playing or also
from finished, since `resetGame` has no status precondition; so finished is
not terminal. -/
theorem c2_status_transitions (r r' : Room) (hs : Step r r') :
    StatusTransOk r.status r'.status := by
  cases hs with
  | join a b c hreg => exact Or.inl (join_status r a b c).symm
  | leave pid hreg =>
    rcases leave_status r pid with h | h
    · exact Or.inl h.symm
    · exact Or.inr (Or.inr (Or.inl ⟨h.1, h.2⟩))
  | start req k hreg =>
    rcases start_status r req k with h | h
    · exact Or.inl h.symm
    · exact Or.inr (Or.inl ⟨h.1, h.2⟩)
  | reset req hreg =>
    rcases reset_status r req with h | h
    · exact Or.inl h.symm
    · cases hst : r.status with
      | waiting => exact Or.inl h.symm
      | playing => exact Or.inr (Or.inr (Or.inr ⟨Or.inl rfl, h⟩))
      | finished => exact Or.inr (Or.inr (Or.inr ⟨Or.inr rfl, h⟩))
  | guess pid g hreg =>
    rcases guess_status r pid g with h | h
    · exact Or.inl h.symm
    · exact Or.inr (Or.inr (Or.inl ⟨h.1, h.2⟩))
  | roundCont _ k evts hreg hsome =>
    exact Or.inl (cont_status r r' k evts hsome).symm
  | tick hreg => exact Or.inl (tick_status r).symm
  | canvas d hreg => exact Or.inl (canvas_status r d).symm

theorem c2_status_transitions_witness :
    StatusTransOk (createRoom "W" ["x"]).status
      ((removePlayer (createRoom "W" ["x"]) "W").1).status :=
  c2_status_transitions _ _ (Step.leave _ "W" rfl)

/-- C3: for every reachable room, if a `removePlayer` call leaves the roster
empty the room is deregistered.  The branch of `removePlayer` that skips
deregistration (insufficient-players termination) requires the pre-state to
be playing, and a reachable playing room always has at least two members, so
a removal that empties the roster always reaches the `cleanupRoom` branch
(which deletes the room from the registry) — regardless of the status at the
time of removal. -/
theorem c3_remove_last_member_deregisters (r : Room) (hr : Reach r)
    (pid : String)
    (hempty : (removePlayer r pid).1.playerIds = []) :
    (removePlayer r pid).1.registered = false := by
  obtain ⟨hnd, hiff, hpl⟩ := inv_of_reach r hr
  revert hempty
  unfold removePlayer endGameDueToInsufficientPlayers cleanupRoom
  split
  · intro hempty
    exact hiff.mpr hempty
  · next hmem' =>
    have hmem : pid ∈ r.playerIds := by
      rw [← contains_iff_mem]
      cases hcc : r.playerIds.contains pid
      · rw [hcc] at hmem'
        exact absurd rfl hmem'
      · rfl
    have hlen : (r.playerIds.filter (fun q => q != pid)).length =
        r.playerIds.length - 1 := length_filter_ne_of_mem _ _ hnd hmem
    dsimp only
    split
    · next hc =>
      intro hempty
      exfalso
      have hplen : 2 ≤ r.playerIds.length := hpl hc.1
      have := congrArg List.length hempty
      simp only [List.length_nil] at this
      omega
    · split
      · intro _
        rfl
      · next hc hzero =>
        intro hempty
        exfalso
        have := congrArg List.length hempty
        simp only [List.length_nil] at this
        exact hzero this

theorem c3_remove_last_member_deregisters_witness :
    (removePlayer (createRoom "A" ["cat"]) "A").1.registered = false :=
  c3_remove_last_member_deregisters _ (Reach.init "A" ["cat"]) "A" (by decide)

/-- C4: the claim describes the guard the spec demands, but the code has
none.  The 3-second continuation scheduled by `endRound` (lines 291–293) is
exactly `() => this.startNewRound()`; if the room was reset in the interim
the Round is gone (`gameState === null`) and the callback dereferences it —
a `TypeError` (modelled as `startNewRoundRoom _ _ = none`), not the claimed
"no state change, no error".  Concretely: a two-player game starts, the host
resets during the delay, and the pending continuation then hits the null
`gameState`. -/
theorem c4_post_round_continuation_unguarded :
    c4Room3.gameState = none ∧ c4Room3.status = Status.waiting ∧
    startNewRoundRoom c4Room3 0 = none := by
  decide

/-- C5 (counterexample): the code trims only the guess, not the secret word
(line 301: `currentWord.toLowerCase()` with no `.trim()`).  With stored word
`"cat "` the guess `"cat"` differs only in surrounding whitespace — the
claim (and the spec-worded comparison `specNormalizedMatch`) predicts a
correct guess, but `isCorrectGuess` rejects it and `handleGuess` is a
no-op. -/
theorem c5_secret_word_not_trimmed :
    specNormalizedMatch "cat" "cat " = true ∧
    isCorrectGuess "cat" "cat " = false ∧
    handleGuess c5Room "B" "cat" = (c5Room, []) := by
  decide

/-- C5 (amended): the guess is case-folded then trimmed while the secret
word is only case-folded; hence a guess differing from the secret word only
in letter case or in the guess's own surrounding whitespace (hypothesis
`h1`) is a correct guess provided the stored word itself carries no
surrounding whitespace (hypothesis `h2`). -/
theorem c5_guess_normalization (g w : String)
    (h1 : jsTrim (jsToLower g) = jsTrim (jsToLower w))
    (h2 : jsTrim (jsToLower w) = jsToLower w) :
    isCorrectGuess g w = true := by
  unfold isCorrectGuess
  rw [h1, h2]
  simp

theorem c5_guess_normalization_witness :
    isCorrectGuess "  CAT " "Cat" = true :=
  c5_guess_normalization "  CAT " "Cat" (by decide) (by decide)

theorem checkForWinner_gameState (r : Room) (h2 : 2 ≤ r.playerIds.length) :
    (checkForWinner r).1.gameState = r.gameState := by
  unfold checkForWinner endGameDueToInsufficientPlayers
  dsimp only
  split
  · next hcond =>
    exfalso
    rcases hcond with ⟨hs, hl⟩
    split at hl
    · dsimp only at hl
      omega
    · split at hl
      · split at hl
        · dsimp only at hl
          omega
        · dsimp only at hl
          omega
      · dsimp only at hl
        omega
  · repeat first | rfl | split

/-- C6: for a correct guess with `timer` seconds remaining, the drawer's
persistent score rises by exactly `40 + 10 * (timer / 10)` and the guesser's
by exactly `30 + 10 * (timer / 10)` (lines 309–314, `timeBonus =
Math.floor(timer / 10) * 10`), and no other participant's score entry
changes. -/
theorem c6_scoring_formula (r : Room) (gs : GameState)
    (pid drawerId g : String) (sp sd : Nat)
    (hst : r.status = Status.playing)
    (hgs : r.gameState = some gs)
    (hdraw : gs.drawingPlayerId = some drawerId)
    (hne : pid ≠ drawerId)
    (hmemd : drawerId ∈ r.playerIds)
    (hmemg : pid ∈ r.playerIds)
    (hok : isCorrectGuess g gs.currentWord = true)
    (hsp : lookupScore gs.scores pid = some sp)
    (hsd : lookupScore gs.scores drawerId = some sd) :
    ∃ gs2, (handleGuess r pid g).1.gameState = some gs2 ∧
      lookupScore gs2.scores pid = some (sp + (30 + gs.timer / 10 * 10)) ∧
      lookupScore gs2.scores drawerId =
        some (sd + (40 + gs.timer / 10 * 10)) ∧
      ∀ q, q ≠ pid → q ≠ drawerId →
        lookupScore gs2.scores q = lookupScore gs.scores q := by
  have h2 : 2 ≤ r.playerIds.length :=
    two_le_length_of_two_mem _ _ _ hmemd hmemg (fun he => hne he.symm)
  have hcd : r.playerIds.contains drawerId = true :=
    (contains_iff_mem _ _).mpr hmemd
  have hcg : r.playerIds.contains pid = true :=
    (contains_iff_mem _ _).mpr hmemg
  unfold handleGuess
  rw [if_neg (fun hc => hc hst), hgs]
  dsimp only
  rw [hdraw]
  rw [if_neg (fun hc : some pid = some drawerId => hne (Option.some.inj hc))]
  rw [hok]
  rw [if_neg (show ¬((!true) = true) by decide)]
  dsimp only
  rw [hcd, hcg]
  rw [if_neg (show ¬((!(true && true)) = true) by decide)]
  dsimp only
  refine ⟨{ gs with scores := bumpScore (bumpScore gs.scores drawerId (40 + gs.timer / 10 * 10)) pid (30 + gs.timer / 10 * 10) }, ?_, ?_, ?_, ?_⟩
  · rw [hdraw]
    exact checkForWinner_gameState _ h2
  · rw [lookup_bump_self, lookup_bump_ne _ _ _ _ hne, hsp]
    rfl
  · rw [lookup_bump_ne _ _ _ _ (fun he => hne he.symm), lookup_bump_self,
      hsd]
    rfl
  · intro q hq1 hq2
    rw [lookup_bump_ne _ _ _ _ hq1, lookup_bump_ne _ _ _ _ hq2]

theorem c6_scoring_formula_witness :
    ∃ gs2, (handleGuess c6Room "B" "Dog ").1.gameState = some gs2 ∧
      lookupScore gs2.scores "B" = some (20 + (30 + c6Gs.timer / 10 * 10)) ∧
      lookupScore gs2.scores "A" = some (10 + (40 + c6Gs.timer / 10 * 10)) ∧
      ∀ q, q ≠ "B" → q ≠ "A" →
        lookupScore gs2.scores q = lookupScore c6Gs.scores q :=
  c6_scoring_formula c6Room c6Gs "B" "A" "Dog " 20 10 rfl rfl rfl
    (by decide) (by decide) (by decide) (by decide) (by decide) (by decide)

theorem emod_succ_round (a m : Int) : ((a % m) + 1) % m = (a + 1) % m := by
  conv_rhs => rw [Int.add_emod]
  rw [Int.add_emod (a % m) 1, Int.emod_emod_of_dvd _ dvd_rfl]

theorem emod_add_emod_right (a b m : Int) : (a + b % m) % m = (a + b) % m := by
  conv_rhs => rw [Int.add_emod]
  rw [Int.add_emod a (b % m), Int.emod_emod_of_dvd _ dvd_rfl]

theorem roundsAfter_index (l words : List String) (picks : Nat → Nat)
    (gs : GameState) (n : Nat) (hn : 1 ≤ n) :
    (roundsAfter l words picks gs n).currentPlayerIndex =
      (gs.currentPlayerIndex + n) % (l.length : Int) := by
  induction n with
  | zero => exact absurd hn (by omega)
  | succ m ih =>
    show (startNewRoundGs l words
      (roundsAfter l words picks gs m) (picks m)).currentPlayerIndex = _
    by_cases hm : 1 ≤ m
    · unfold startNewRoundGs
      dsimp only
      rw [ih hm, emod_succ_round]
      congr 1
      push_cast
      ring_nf
    · have hm0 : m = 0 := by omega
      subst hm0
      unfold startNewRoundGs
      dsimp only [roundsAfter]
      congr 1

theorem roundsAfter_drawer (l words : List String) (picks : Nat → Nat)
    (gs : GameState) (n : Nat) (hn : 1 ≤ n) :
    (roundsAfter l words picks gs n).drawingPlayerId =
      some (l.getD
        ((gs.currentPlayerIndex + n) % (l.length : Int)).toNat "") := by
  cases n with
  | zero => exact absurd hn (by omega)
  | succ m =>
    show (startNewRoundGs l words
      (roundsAfter l words picks gs m) (picks m)).drawingPlayerId = _
    by_cases hm : 1 ≤ m
    · unfold startNewRoundGs
      dsimp only
      rw [roundsAfter_index l words picks gs m hm, emod_succ_round]
      congr 3
      push_cast
      ring_nf
    · have hm0 : m = 0 := by omega
      subst hm0
      unfold startNewRoundGs
      dsimp only [roundsAfter]
      congr 3

/-- C7 (counterexample): with a mid-game leave the drawer can repeat even
though the roster still has two members.  Reachable trace: "A" creates, "B"
and "C" join, the game starts (round 1: index 0, drawer "A"); the post-round
continuation starts round 2 (index 1, drawer "B"); "A" leaves (roster
["B", "C"], still playing); the next round computes index (1 + 1) % 2 = 0 —
drawer "B" again, back to back. -/
theorem c7_drawer_can_repeat_after_leave :
    Reach c7Room5 ∧ c7Room5.status = Status.playing ∧
    c7Room5.playerIds.length = 2 ∧
    c7Room4.gameState.map (fun gsx => gsx.drawingPlayerId) =
      some (some "B") ∧
    (startNewRoundRoom c7Room5 0).map
        (fun p => p.1.gameState.map (fun gsx => gsx.drawingPlayerId)) =
      some (some (some "B")) := by
  refine ⟨?_, by decide, by decide, by decide, by decide⟩
  exact Reach.step _ _
    (Reach.step _ _
      (Reach.step _ _
        (Reach.step _ _
          (Reach.step _ _ (Reach.init "A" ["w1", "w2", "w3", "w4"])
            (Step.join _ "r7" "b" "B" rfl))
          (Step.join _ "r7" "c" "C" rfl))
        (Step.start _ "A" 0 rfl))
      (Step.roundCont c7Room3 c7Room4 0 [Event.newRound "B"] (by decide)
        (by decide)))
    (Step.leave _ "A" rfl)

/-- C7 (amended): over a roster that does not change between rounds, the
drawer rotation of `startNewRound` is a clean cycle: within any window of
`|roster|` consecutive rounds no drawer repeats (in particular round N+1's
drawer differs from round N's when the roster has ≥ 2 members), and every
roster member draws within any such window.  With membership changes between
rounds the claim fails (see the counterexample). -/
theorem c7_rotation_static_roster (l words : List String)
    (picks : Nat → Nat) (gs : GameState)
    (hnd : l.Nodup) (h2 : 2 ≤ l.length) :
    (∀ j k : Nat, 1 ≤ j → j < k → k - j < l.length →
      (roundsAfter l words picks gs k).drawingPlayerId ≠
        (roundsAfter l words picks gs j).drawingPlayerId) ∧
    (∀ m ∈ l, ∀ j : Nat, 1 ≤ j → ∃ i, j ≤ i ∧ i < j + l.length ∧
      (roundsAfter l words picks gs i).drawingPlayerId = some m) := by
  have hL : (0 : Int) < (l.length : Int) := by
    exact_mod_cast (by omega : 0 < l.length)
  have hLne : (l.length : Int) ≠ 0 := by omega
  constructor
  · intro j k hj hjk hkj heq
    rw [roundsAfter_drawer l words picks gs k (by omega),
      roundsAfter_drawer l words picks gs j hj] at heq
    have heq2 := Option.some.inj heq
    have hnk : 0 ≤ (gs.currentPlayerIndex + k) % (l.length : Int) :=
      Int.emod_nonneg _ hLne
    have hnj : 0 ≤ (gs.currentPlayerIndex + j) % (l.length : Int) :=
      Int.emod_nonneg _ hLne
    have hbk : ((gs.currentPlayerIndex + k) % (l.length : Int)).toNat
        < l.length := by
      rw [Int.toNat_lt hnk]
      exact Int.emod_lt_of_pos _ hL
    have hbj : ((gs.currentPlayerIndex + j) % (l.length : Int)).toNat
        < l.length := by
      rw [Int.toNat_lt hnj]
      exact Int.emod_lt_of_pos _ hL
    rw [List.getD_eq_getElem l "" hbk, List.getD_eq_getElem l "" hbj] at heq2
    have hval := (hnd.getElem_inj_iff).mp heq2
    have hEq : (gs.currentPlayerIndex + ↑k) % (l.length : Int) =
        (gs.currentPlayerIndex + ↑j) % (l.length : Int) := by
      rw [← Int.toNat_of_nonneg hnk, ← Int.toNat_of_nonneg hnj, hval]
    have hzero := Int.emod_eq_emod_iff_emod_sub_eq_zero.mp hEq
    have hsub : (gs.currentPlayerIndex + ↑k) - (gs.currentPlayerIndex + ↑j) =
        ((k : Int) - j) := by ring
    rw [hsub] at hzero
    have hdvd := Int.dvd_of_emod_eq_zero hzero
    have hposkj : (0 : Int) < (k : Int) - j := by omega
    have hle := Int.le_of_dvd hposkj hdvd
    omega
  · intro m hm j hj
    obtain ⟨t, ht⟩ := List.mem_iff_get.mp hm
    have htv : (t : Nat) < l.length := t.isLt
    have hd0 : 0 ≤ ((t : Int) - (gs.currentPlayerIndex + ↑j)) %
        (l.length : Int) := Int.emod_nonneg _ hLne
    have hdlt : ((t : Int) - (gs.currentPlayerIndex + ↑j)) %
        (l.length : Int) < (l.length : Int) := Int.emod_lt_of_pos _ hL
    have hdn : ((((t : Int) - (gs.currentPlayerIndex + ↑j)) %
        (l.length : Int)).toNat) < l.length := by
      rw [Int.toNat_lt hd0]
      exact hdlt
    refine ⟨j + (((t : Int) - (gs.currentPlayerIndex + ↑j)) %
      (l.length : Int)).toNat, by omega, by omega, ?_⟩
    rw [roundsAfter_drawer l words picks gs _ (by omega)]
    have hcast : ((j + (((t : Int) - (gs.currentPlayerIndex + ↑j)) %
        (l.length : Int)).toNat : Nat) : Int) =
        ↑j + ((t : Int) - (gs.currentPlayerIndex + ↑j)) %
          (l.length : Int) := by
      push_cast [Int.toNat_of_nonneg hd0]
      ring
    rw [hcast]
    have hassoc : gs.currentPlayerIndex + (↑j + ((t : Int) -
        (gs.currentPlayerIndex + ↑j)) % (l.length : Int)) =
        (gs.currentPlayerIndex + ↑j) + ((t : Int) -
          (gs.currentPlayerIndex + ↑j)) % (l.length : Int) := by ring
    rw [hassoc, emod_add_emod_right]
    have hcollapse : gs.currentPlayerIndex + ↑j + ((t : Int) -
        (gs.currentPlayerIndex + ↑j)) = (t : Int) := by ring
    rw [hcollapse]
    have htl : ((t : Nat) : Int) < (l.length : Int) := by exact_mod_cast htv
    rw [Int.emod_eq_of_lt (by omega) htl]
    rw [Int.toNat_natCast]
    rw [List.getD_eq_getElem l "" htv]
    rw [← List.get_eq_getElem]
    rw [ht]

theorem c7_rotation_static_roster_witness :
    (roundsAfter ["A", "B", "C"] ["x", "y", "z"] (fun _ => 0)
        (initGameState ["A", "B", "C"]) 2).drawingPlayerId ≠
      (roundsAfter ["A", "B", "C"] ["x", "y", "z"] (fun _ => 0)
        (initGameState ["A", "B", "C"]) 1).drawingPlayerId ∧
    ∃ i, 1 ≤ i ∧ i < 1 + (["A", "B", "C"] : List String).length ∧
      (roundsAfter ["A", "B", "C"] ["x", "y", "z"] (fun _ => 0)
        (initGameState ["A", "B", "C"]) i).drawingPlayerId = some "C" :=
  ⟨(c7_rotation_static_roster ["A", "B", "C"] ["x", "y", "z"] (fun _ => 0)
      (initGameState ["A", "B", "C"]) (by decide) (by decide)).1
      1 2 (by omega) (by omega) (by decide),
    (c7_rotation_static_roster ["A", "B", "C"] ["x", "y", "z"] (fun _ => 0)
      (initGameState ["A", "B", "C"]) (by decide) (by decide)).2
      "C" (by decide) 1 (by omega)⟩

/-- C8: `startGame` (with its handler's host check) succeeds exactly when
the room is waiting, has at least two members and the requester is the host;
any failure returns `false` and leaves the room untouched.  On success it
returns `true`, the status becomes playing, and the Round is initialized
with every current member's score at 0 (still 0 after the immediately
started first round, which does not touch scores) and an empty used-word
history (the first round then records its chosen word). -/
theorem c8_start_game_guards (r : Room) (req : String) (k : Nat) :
    (¬(r.status = Status.waiting ∧ 2 ≤ r.playerIds.length ∧ req = r.host) →
      (handleStartGame r req k).1 = false ∧
      (handleStartGame r req k).2.1 = r) ∧
    ((r.status = Status.waiting ∧ 2 ≤ r.playerIds.length ∧ req = r.host) →
      (handleStartGame r req k).1 = true ∧
      (handleStartGame r req k).2.1.status = Status.playing ∧
      (∃ gs2, (handleStartGame r req k).2.1.gameState = some gs2 ∧
        ∀ pid ∈ r.playerIds, lookupScore gs2.scores pid = some 0) ∧
      (initGameState r.playerIds).usedWords = []) := by
  constructor
  · intro hno
    unfold handleStartGame startGame
    by_cases hhost : req = r.host
    · have hguard : r.status ≠ Status.waiting ∨ r.playerIds.length < 2 := by
        by_cases hw : r.status = Status.waiting
        · right
          by_cases hl : 2 ≤ r.playerIds.length
          · exact absurd ⟨hw, hl, hhost⟩ hno
          · omega
        · exact Or.inl hw
      rw [if_neg (not_not_intro hhost), if_pos hguard]
      exact ⟨rfl, rfl⟩
    · rw [if_pos hhost]
      exact ⟨rfl, rfl⟩
  · rintro ⟨hw, hl, hhost⟩
    unfold handleStartGame startGame
    rw [if_neg (not_not_intro hhost),
      if_neg (show ¬(r.status ≠ Status.waiting ∨ r.playerIds.length < 2) by
        push_neg
        exact ⟨hw, by omega⟩)]
    refine ⟨rfl, rfl, ⟨_, rfl, ?_⟩, rfl⟩
    intro pid hm
    exact lookup_map_zero _ _ hm

theorem c8_start_game_guards_witness :
    (handleStartGame c8Room "H" 0).1 = true ∧
    (handleStartGame c8Room "H" 0).2.1.status = Status.playing ∧
    (handleStartGame (createRoom "H" ["w8"]) "H" 0).1 = false ∧
    (handleStartGame (createRoom "H" ["w8"]) "H" 0).2.1 =
      createRoom "H" ["w8"] :=
  ⟨((c8_start_game_guards c8Room "H" 0).2 (by decide)).1,
    ((c8_start_game_guards c8Room "H" 0).2 (by decide)).2.1,
    ((c8_start_game_guards (createRoom "H" ["w8"]) "H" 0).1 (by decide)).1,
    ((c8_start_game_guards (createRoom "H" ["w8"]) "H" 0).1 (by decide)).2⟩

/-- C9: `getRandomWord` never returns a word already in the game's used-word
history as long as some word of the list is still unused; once every word
has been used, the history is cleared (the new history holds just the fresh
pick) and the pick is drawn from the full list. -/
theorem c9_no_repeat_until_exhausted (words usedWords : List String)
    (k : Nat) :
    ((∃ w ∈ words, w ∉ usedWords) →
      (getRandomWord words usedWords k).1 ∈ words ∧
      (getRandomWord words usedWords k).1 ∉ usedWords) ∧
    ((∀ w ∈ words, w ∈ usedWords) → words ≠ [] →
      (getRandomWord words usedWords k).2 =
        [(getRandomWord words usedWords k).1] ∧
      (getRandomWord words usedWords k).1 ∈ words) := by
  constructor
  · rintro ⟨w, hw, hnu⟩
    have hwavail : w ∈ words.filter (fun x => !usedWords.contains x) := by
      rw [List.mem_filter]
      refine ⟨hw, ?_⟩
      cases hc : usedWords.contains w
      · rfl
      · exact absurd ((contains_iff_mem _ _).mp hc) hnu
    have hne : words.filter (fun x => !usedWords.contains x) ≠ [] :=
      List.ne_nil_of_mem hwavail
    have hlen : 0 < (words.filter (fun x => !usedWords.contains x)).length :=
      List.length_pos.mpr hne
    unfold getRandomWord
    rw [if_neg (fun hc => hne (List.isEmpty_iff.mp hc))]
    dsimp only
    have hidx : k % (words.filter (fun x => !usedWords.contains x)).length <
        (words.filter (fun x => !usedWords.contains x)).length :=
      Nat.mod_lt _ hlen
    rw [List.getD_eq_getElem _ _ hidx]
    have hmemav := List.getElem_mem hidx
    rw [List.mem_filter] at hmemav
    refine ⟨hmemav.1, fun hmu => ?_⟩
    have := (contains_iff_mem _ _).mpr hmu
    rw [this] at hmemav
    cases hmemav.2
  · intro hall hnonnil
    have hempty : words.filter (fun x => !usedWords.contains x) = [] := by
      rw [List.filter_eq_nil_iff]
      intro a ha
      rw [(contains_iff_mem _ _).mpr (hall a ha)]
      decide
    unfold getRandomWord
    rw [if_pos (List.isEmpty_iff.mpr hempty)]
    dsimp only
    have hlen : 0 < words.length :=
      List.length_pos.mpr hnonnil
    have hidx : k % words.length < words.length := Nat.mod_lt _ hlen
    rw [List.getD_eq_getElem _ _ hidx]
    exact ⟨rfl, List.getElem_mem hidx⟩

theorem c9_no_repeat_until_exhausted_witness :
    ((getRandomWord ["a", "b"] ["a"] 0).1 ∈ (["a", "b"] : List String) ∧
      (getRandomWord ["a", "b"] ["a"] 0).1 ∉ (["a"] : List String)) ∧
    ((getRandomWord ["a"] ["a"] 5).2 = [(getRandomWord ["a"] ["a"] 5).1] ∧
      (getRandomWord ["a"] ["a"] 5).1 ∈ (["a"] : List String)) :=
  ⟨(c9_no_repeat_until_exhausted ["a", "b"] ["a"] 0).1
      ⟨"b", by decide, by decide⟩,
    (c9_no_repeat_until_exhausted ["a"] ["a"] 5).2 (by decide) (by decide)⟩

/-- C10: `handleJoinRoom` rejects any join aimed at a room that is not
waiting (playing or finished): the caller alone receives a single `error`
event and the room value — roster, host, status, game state — is returned
unchanged, so nobody ever enters a room mid-game. -/
theorem c10_join_rejected_when_not_waiting (r : Room)
    (roomId playerName newPlayerId : String)
    (h : r.status ≠ Status.waiting) :
    (handleJoinRoom r roomId playerName newPlayerId).1 = r ∧
    ∃ m, (handleJoinRoom r roomId playerName newPlayerId).2 =
      [Event.errorToCaller m] := by
  unfold handleJoinRoom
  split
  · exact ⟨rfl, _, rfl⟩
  · exact ⟨rfl, _, rfl⟩

theorem c10_join_rejected_when_not_waiting_witness :
    (handleJoinRoom c10Room "rid" "Pat" "P").1 = c10Room ∧
    ∃ m, (handleJoinRoom c10Room "rid" "Pat" "P").2 =
      [Event.errorToCaller m] :=
  c10_join_rejected_when_not_waiting c10Room "rid" "Pat" "P" (by decide)
